import Mathlib

/-! # MQTT-Study: verification development

Shallow embedding of the three example programs of the repository

* `cmd/simple-example/main.go`  (simple publisher),
* `cmd/device-data/main.go`     (telemetry publisher),
* `cmd/subscriber-side/main.go` (subscriber with the `processMsg` pipeline),

followed by the theorems about them.

Conventions of the embedding.

* The MQTT client library, the random source, the clock, the JSON encoder and
  the operating system are collaborators.  Their answers are inputs of the
  embedded functions (an `Env` structure per program); the calls made on them
  are recorded, in program order, as a list of `Action`s.
* A goroutine is a step function on an explicit state; a scheduler choice is
  an event, and an event that is not enabled in a state yields `none`.
-/

namespace MqttStudy

/-! ## Collaborators shared by the three programs -/

/-- Modelled from the spec: the completion token of the external MQTT client
library (not part of the repository sources).  A token exposes the terminal
error of the operation, if any. -/
structure Token where
  /-- Result of `token.Error()`: `none` is Go's `nil`. -/
  err : Option String
  deriving DecidableEq, Repr

/-- Modelled from the spec: `token.Wait()` of the external client library blocks
until the operation resolves and then reports completion. -/
def Token.Wait (_t : Token) : Bool := true

/-- Go's `token.Error()`. -/
def Token.Error (t : Token) : Option String := t.err

/-- An MQTT payload handed to `client.Publish`. -/
abbrev Payload := String

/-- Calls and outputs a `main` function performs, in program order. -/
inductive Action where
  /-- The call `client.Connect()` followed by `token.Wait()`. -/
  | connect
  /-- A line written to standard output (without the trailing newline). -/
  | print (line : String)
  /-- The call `client.Publish(topic, qos, retained, payload)`. -/
  | publish (topic : String) (qos : Nat) (retained : Bool) (payload : Payload)
  /-- The call `token.Wait()` on a publish or subscribe token. -/
  | tokenWait
  /-- The call `time.Sleep` with the duration in milliseconds. -/
  | sleep (ms : Nat)
  /-- The call `signal.Notify(sigChan, os.Interrupt, syscall.SIGTERM)`. -/
  | signalNotify
  /-- A successful receive from `sigChan`. -/
  | recvSignal
  /-- The call `context.WithCancel(context.Background())`. -/
  | withCancel
  /-- The call `wg.Add(n)`. -/
  | wgAdd (n : Nat)
  /-- The `go func()` statement that starts the drain goroutine and, inside
  it, the `processMsg` worker. -/
  | goWorker
  /-- The call `client.Subscribe(topic, qos, nil)`. -/
  | subscribe (topic : String) (qos : Nat)
  /-- The call `cancel()` of the context. -/
  | cancel
  /-- The call `client.Unsubscribe(topic)`. -/
  | unsubscribe (topic : String)
  /-- The call `client.Disconnect(quiesce)`. -/
  | disconnect (quiesce : Nat)
  /-- The call `wg.Wait()` having returned. -/
  | wgWait
  deriving DecidableEq, Repr

/-- How the run of a `main` function ends. -/
inductive Outcome where
  /-- Return from `main`: exit status 0. -/
  | exited
  /-- The call `panic(err)`: abnormal termination, exit status 2. -/
  | panicked (err : String)
  /-- Blocked in `<-sigChan` because no signal is ever delivered. -/
  | awaitingSignal
  /-- Still inside its `for` loop when the supplied environment ran out. -/
  | looping
  deriving DecidableEq, Repr

/-- Exit status of the process for an outcome that ends it. -/
def Outcome.exitStatus : Outcome → Option Nat
  | .exited => some 0
  | .panicked _ => some 2
  | .awaitingSignal => none
  | .looping => none

/-- The run of a `main` function: its actions and how it ends. -/
structure Run where
  trace : List Action
  outcome : Outcome
  deriving DecidableEq, Repr

/-- Put actions in front of a run. -/
def Run.after (pre : List Action) (r : Run) : Run :=
  { trace := pre ++ r.trace, outcome := r.outcome }

/-- Whether an action is a publish. -/
def Action.isPublish : Action → Bool
  | .publish _ _ _ _ => true
  | _ => false

/-- Whether an action is a subscribe. -/
def Action.isSubscribe : Action → Bool
  | .subscribe _ _ => true
  | _ => false

/-- Whether an action is a client disconnect. -/
def Action.isDisconnect : Action → Bool
  | .disconnect _ => true
  | _ => false

/-! ## `cmd/simple-example/main.go` -/

namespace Simple

def broker : String := "tcp://localhost:1883"
def clientID : String := "go-mqtt-client"
def topic : String := "iot-messages"

/-- The slice literal `messages` of `generateRandomMessage`. -/
def messages : List String :=
  [ "Hello, World!",
    "Greetings from Go!",
    "MQTT is awesome!",
    "Random message incoming!",
    "Go is fun!" ]

/-- The function `generateRandomMessage`; `draw` is the value returned by
`rand.Intn(len(messages))`.  The index expression `messages[draw]` panics in Go
when out of range: that is `none`. -/
def generateRandomMessage (draw : Nat) : Option String :=
  messages[draw]?

/-- The endless `for` loop of `main`, run for as many iterations as there are
random draws supplied. -/
def publishLoop : List Nat → Run
  | [] => { trace := [], outcome := .looping }
  | draw :: rest =>
    match generateRandomMessage draw with
    | none => { trace := [], outcome := .panicked "index out of range" }
    | some message =>
      Run.after
        [ .publish topic 0 false message,
          .tokenWait,
          .print ("Published message: " ++ message),
          .sleep 1000 ]
        (publishLoop rest)

/-- Inputs of a run of the simple publisher. -/
structure Env where
  /-- The token returned by `client.Connect()`. -/
  connectToken : Token
  /-- The successive results of `rand.Intn(len(messages))`. -/
  draws : List Nat

/-- The function `main` of the simple publisher. -/
def main (env : Env) : Run :=
  if env.connectToken.Wait && env.connectToken.Error != none then
    { trace := [.connect],
      outcome := .panicked (env.connectToken.Error.getD "") }
  else
    Run.after [.connect] (publishLoop env.draws)

end Simple

/-! ## `cmd/device-data/main.go` -/

namespace Telemetry

def broker : String := "tcp://localhost:1883"
def clientID : String := "go-mqtt-client"
def topic : String := "iot-messages"

/-- A dynamically typed Go value (`interface{}`) of the kinds this program
builds, which is also the tree `encoding/json` writes for it. -/
inductive Value where
  /-- A Go `int`. -/
  | int (n : Int)
  /-- A Go `string`. -/
  | str (s : String)
  /-- A `time.Time`, written by `encoding/json` as an RFC 3339 string; the
  instant is kept as nanoseconds since the epoch. -/
  | instant (nanos : Nat)
  /-- A `map[string]interface{}` or a struct, as its key and value pairs. -/
  | object (fields : List (String × Value))
  deriving Repr

/-- The struct `Message`: what is sent to the MQTT broker. -/
structure Message where
  /-- Field `Time time.Time`. -/
  Time : Nat
  /-- Field `DeviceId string`. -/
  DeviceId : String
  /-- Field `DeviceType string`. -/
  DeviceType : String
  /-- Field `DeviceData interface{}`. -/
  DeviceData : Value
  deriving Repr

/-- The function `generateRandomMessage`; `now` is the value of `time.Now()` and
`draw` the value returned by `rand.Intn(40)`. -/
def generateRandomMessage (now : Nat) (draw : Int) : Message :=
  { Time := now,
    DeviceId := "bracelet-123",
    DeviceType := "bracelet",
    DeviceData := .object [("heart_rate", .int (draw + 60))] }

/-- The JSON form of a `Message`, field by field with the names of the struct
tags `json:"time"`, `json:"device_id"`, `json:"device_type"` and
`json:"device_data"`. -/
def Message.toJson (m : Message) : Value :=
  .object
    [ ("time", .instant m.Time),
      ("device_id", .str m.DeviceId),
      ("device_type", .str m.DeviceType),
      ("device_data", m.DeviceData) ]

/-- The field names of a JSON object, in order; `none` for any other value. -/
def Value.fieldNames : Value → Option (List String)
  | .object fields => some (fields.map Prod.fst)
  | _ => none

/-- The value stored under a key of a JSON object. -/
def Value.field (key : String) : Value → Option Value
  | .object fields => (fields.find? (fun kv => kv.1 == key)).map Prod.snd
  | _ => none

/-- What one evaluation of the `select` of the main loop meets. -/
structure Tick where
  /-- Whether `sigChan` holds a signal, so that `case <-sigChan` is taken
  instead of `default`. -/
  signalPending : Bool
  /-- The value of `time.Now()` in this iteration. -/
  now : Nat
  /-- The value of `rand.Intn(40)` in this iteration. -/
  draw : Int

/-- Inputs of a run of the telemetry publisher. -/
structure Env where
  /-- The token returned by `client.Connect()`. -/
  connectToken : Token
  /-- The result of `json.Marshal(msg)`: the payload, or the encoding error. -/
  marshal : Message → Except String Payload
  /-- The rendering of a message by the verb `%+v` of `fmt.Printf`. -/
  render : Message → String
  /-- The successive evaluations of the `select` of the main loop. -/
  ticks : List Tick

/-- The labelled `for` loop of `main` together with the statements that follow
it, run for as many iterations as there are ticks supplied. -/
def publishLoop (marshal : Message → Except String Payload) (render : Message → String) :
    List Tick → Run
  | [] => { trace := [], outcome := .looping }
  | tick :: rest =>
    if tick.signalPending then
      { trace :=
          [ .recvSignal,
            .print "Stopping publisher...",
            .disconnect 250,
            .print "Disconnected" ],
        outcome := .exited }
    else
      let msg := generateRandomMessage tick.now tick.draw
      match marshal msg with
      | .error err =>
        Run.after [.print ("JSON error: " ++ err)] (publishLoop marshal render rest)
      | .ok payload =>
        Run.after
          [ .publish topic 0 false payload,
            .tokenWait,
            .print ("Published: " ++ render msg),
            .sleep 1000 ]
          (publishLoop marshal render rest)

/-- The function `main` of the telemetry publisher. -/
def main (env : Env) : Run :=
  if env.connectToken.Wait && env.connectToken.Error != none then
    { trace := [.connect],
      outcome := .panicked (env.connectToken.Error.getD "") }
  else
    Run.after [.connect, .print "Connected to MQTT broker", .signalNotify]
      (publishLoop env.marshal env.render env.ticks)

end Telemetry

/-! ## `cmd/subscriber-side/main.go` -/

namespace Subscriber

def broker : String := "tcp://localhost:1883"
def clientID : String := "go-mqtt-subscriber"
def topic : String := "iot-messages"

/-- An inbound `mqtt.Message`, through its accessors `Payload()` and `Topic()`;
the payload bytes are kept as the text the verb `%s` writes for them. -/
structure Message where
  payload : String
  topic : String
  deriving DecidableEq, Repr

/-- The line written by
`fmt.Printf("Received message: %s from topic: %s\n", msg.Payload(), msg.Topic())`,
without the trailing newline. -/
def receivedLine (msg : Message) : String :=
  "Received message: " ++ msg.payload ++ " from topic: " ++ msg.topic

/-- An operation performed on the channel `out` of `processMsg`. -/
inductive OutOp where
  /-- A completed send `out <- msg`. -/
  | send (msg : Message)
  /-- The deferred `close(out)`. -/
  | close
  deriving DecidableEq, Repr

/-- Where the goroutine started by `processMsg` stands. -/
inductive Pc where
  /-- At the `select` statement. -/
  | select
  /-- After the `Printf`, at the send `out <- msg`. -/
  | forward (msg : Message)
  /-- Returned; the deferred `close(out)` has run. -/
  | returned
  deriving DecidableEq, Repr

/-- State of the goroutine started by `processMsg`, with what it has written
to standard output and done on `out` so far. -/
structure Worker where
  pc : Pc
  stdout : List String
  out : List OutOp
  deriving DecidableEq, Repr

/-- A step the goroutine of `processMsg` can be scheduled to take. -/
inductive WorkerEvent where
  /-- The `select` takes `case msg, ok := <-input` with `ok = true`. -/
  | recv (msg : Message)
  /-- The `select` takes `case msg, ok := <-input` with `ok = false`. -/
  | inputClosed
  /-- The `select` takes `case <-ctx.Done()`. -/
  | ctxDone
  /-- The send `out <- msg` completes: the reader of `out` took the message. -/
  | outTaken
  deriving DecidableEq, Repr

/-- The goroutine of `processMsg` when it starts: at the `select`, `out` just
made. -/
def Worker.init : Worker :=
  { pc := .select, stdout := [], out := [] }

/-- One step of the goroutine of `processMsg`; `none` when the event is not
enabled at the current program point. -/
def Worker.step (w : Worker) : WorkerEvent → Option Worker
  | .recv msg =>
    match w.pc with
    | .select =>
      some { w with pc := .forward msg, stdout := w.stdout ++ [receivedLine msg] }
    | _ => none
  | .inputClosed =>
    match w.pc with
    | .select => some { w with pc := .returned, out := w.out ++ [.close] }
    | _ => none
  | .ctxDone =>
    match w.pc with
    | .select => some { w with pc := .returned, out := w.out ++ [.close] }
    | _ => none
  | .outTaken =>
    match w.pc with
    | .forward msg => some { w with pc := .select, out := w.out ++ [.send msg] }
    | _ => none

/-- Run the goroutine of `processMsg` through a schedule; `none` when some event
of the schedule is not enabled. -/
def Worker.run (w : Worker) : List WorkerEvent → Option Worker
  | [] => some w
  | e :: rest =>
    match w.step e with
    | none => none
    | some w' => Worker.run w' rest

/-- The messages a schedule makes the worker receive from `input`, in order. -/
def receivedOf : List WorkerEvent → List Message
  | [] => []
  | .recv msg :: rest => msg :: receivedOf rest
  | _ :: rest => receivedOf rest

/-- Number of `close` operations in a log of `out`. -/
def closeCount (ops : List OutOp) : Nat :=
  ops.count .close

/-- Shape of the log of `out`: the sends of the given messages, closed by one
`close` exactly when the worker has returned. -/
def Worker.outShape (w : Worker) (sent : List Message) : Prop :=
  (w.pc = .returned → w.out = sent.map OutOp.send ++ [.close]) ∧
  (w.pc ≠ .returned → w.out = sent.map OutOp.send)

/-- What the drain goroutine of `main` has done. -/
structure Drain where
  /-- The messages the loop `for range finalChan` has taken. -/
  taken : List Message
  /-- Whether the loop has ended, after which the deferred `wg.Done()` runs and
  `wg.Wait()` in `main` returns. -/
  ended : Bool
  deriving DecidableEq, Repr

/-- The drain goroutine of `main`, `for range finalChan` with an empty body,
over the operations performed on `out`: it takes every message sent, and the
close ends it. -/
def drainLoop : List OutOp → Drain
  | [] => { taken := [], ended := false }
  | .send msg :: rest =>
    let d := drainLoop rest
    { taken := msg :: d.taken, ended := d.ended }
  | .close :: _ => { taken := [], ended := true }

/-- State of the pipeline of the subscriber: the context, the invocations of
`messagePubHandler` and the goroutine of `processMsg`. -/
structure Pipeline where
  /-- Whether `cancel()` has been called. -/
  cancelled : Bool
  /-- The invocations of `messagePubHandler` standing in the send
  `mqttMsgChan <- msg`, oldest first. -/
  blocked : List Message
  /-- The goroutine of `processMsg`. -/
  worker : Worker
  deriving DecidableEq, Repr

/-- A step of the pipeline. -/
inductive PipelineEvent where
  /-- The client library invokes `messagePubHandler(client, msg)`, which starts
  the send `mqttMsgChan <- msg`. -/
  | deliver (msg : Message)
  /-- The function `main` calls `cancel()`. -/
  | cancel
  /-- The worker receives from `mqttMsgChan` the message of the oldest
  standing send, which thereby completes. -/
  | workerRecv
  /-- The worker takes `case <-ctx.Done()`. -/
  | workerDone
  /-- The drain loop `for range finalChan` takes the message the worker is
  sending on `out`. -/
  | drainTake
  deriving DecidableEq, Repr

/-- The pipeline after `main` has started the goroutines: no message delivered,
the context not cancelled. -/
def Pipeline.init : Pipeline :=
  { cancelled := false, blocked := [], worker := Worker.init }

/-- One step of the pipeline; `none` when the event is not enabled.  The channel
`mqttMsgChan` is unbuffered and never closed, so a send on it completes only by
meeting the receive of the worker's `select`. -/
def Pipeline.step (p : Pipeline) : PipelineEvent → Option Pipeline
  | .deliver msg => some { p with blocked := p.blocked ++ [msg] }
  | .cancel => some { p with cancelled := true }
  | .workerRecv =>
    match p.blocked with
    | [] => none
    | msg :: rest =>
      (p.worker.step (.recv msg)).map (fun w => { p with blocked := rest, worker := w })
  | .workerDone =>
    if p.cancelled then
      (p.worker.step .ctxDone).map (fun w => { p with worker := w })
    else none
  | .drainTake =>
    (p.worker.step .outTaken).map (fun w => { p with worker := w })

/-- Run the pipeline through a schedule; `none` when some event of the schedule
is not enabled. -/
def Pipeline.run (p : Pipeline) : List PipelineEvent → Option Pipeline
  | [] => some p
  | e :: rest =>
    match p.step e with
    | none => none
    | some p' => Pipeline.run p' rest

/-- The messages a schedule hands to `messagePubHandler`, in order. -/
def deliveredOf : List PipelineEvent → List Message
  | [] => []
  | .deliver msg :: rest => msg :: deliveredOf rest
  | _ :: rest => deliveredOf rest

/-- The schedule in which each of the given messages is delivered, received by
the worker and taken from `out` by the drain loop, one after the other. -/
def steadySchedule : List Message → List PipelineEvent
  | [] => []
  | msg :: rest => .deliver msg :: .workerRecv :: .drainTake :: steadySchedule rest

/-- Where the function `main` stands from the signal wait on. -/
inductive MainPc where
  /-- Blocked in `<-sigChan`. -/
  | awaitSignal
  /-- After `cancel()`, before `client.Unsubscribe(topic)`. -/
  | cancelled
  /-- After `client.Unsubscribe(topic)`, before `client.Disconnect(250)`. -/
  | unsubscribed
  /-- After `client.Disconnect(250)` has returned, in `wg.Wait()`. -/
  | disconnected
  /-- After `wg.Wait()` has returned, before the return from `main`. -/
  | joined
  /-- Returned from `main`: the process is gone, with every goroutine. -/
  | exited
  deriving DecidableEq, Repr

/-- The subscriber process during shutdown: the function `main` and the
pipeline next to it. -/
structure Process where
  /-- Where `main` stands. -/
  main : MainPc
  /-- The handler invocations, the worker and the context. -/
  pipe : Pipeline
  deriving DecidableEq, Repr

/-- A step of the subscriber process. -/
inductive ProcessEvent where
  /-- The function `main` executes its next statement: the signal receive with
  `cancel()`, then `Unsubscribe`, `Disconnect(250)`, `wg.Wait()`, the return. -/
  | main
  /-- The client library invokes `messagePubHandler(client, msg)`. -/
  | deliver (msg : Message)
  /-- The worker receives the message of the oldest standing send. -/
  | workerRecv
  /-- The worker takes `case <-ctx.Done()`. -/
  | workerDone
  /-- The drain loop takes the message the worker is sending on `out`. -/
  | drainTake
  deriving DecidableEq, Repr

/-- The subscriber process once subscribed: `main` in `<-sigChan`, the pipeline
just started. -/
def Process.init : Process :=
  { main := .awaitSignal, pipe := Pipeline.init }

/-- One step of the subscriber process; `none` when the event is not enabled.
The call `wg.Wait()` returns once the drain loop has ended; messages are
delivered as long as `Disconnect` has not returned; nothing runs after the
return from `main`. -/
def Process.step (s : Process) : ProcessEvent → Option Process
  | .main =>
    match s.main with
    | .awaitSignal => (s.pipe.step .cancel).map (fun p => { main := .cancelled, pipe := p })
    | .cancelled => some { s with main := .unsubscribed }
    | .unsubscribed => some { s with main := .disconnected }
    | .disconnected =>
      if (drainLoop s.pipe.worker.out).ended then some { s with main := .joined } else none
    | .joined => some { s with main := .exited }
    | .exited => none
  | .deliver msg =>
    match s.main with
    | .awaitSignal | .cancelled | .unsubscribed =>
      (s.pipe.step (.deliver msg)).map (fun p => { s with pipe := p })
    | _ => none
  | .workerRecv =>
    if s.main = .exited then none
    else (s.pipe.step .workerRecv).map (fun p => { s with pipe := p })
  | .workerDone =>
    if s.main = .exited then none
    else (s.pipe.step .workerDone).map (fun p => { s with pipe := p })
  | .drainTake =>
    if s.main = .exited then none
    else (s.pipe.step .drainTake).map (fun p => { s with pipe := p })

/-- Run the subscriber process through a schedule; `none` when some event of
the schedule is not enabled. -/
def Process.run (s : Process) : List ProcessEvent → Option Process
  | [] => some s
  | e :: rest =>
    match s.step e with
    | none => none
    | some s' => Process.run s' rest

/-- What holds of every state the subscriber process reaches: the log of `out`
has its shape, the worker returns only after `cancel()`, and `cancel()` is
called only after the signal. -/
def Process.wellFormed (s : Process) : Prop :=
  (∃ sent, s.pipe.worker.outShape sent) ∧
  (s.pipe.worker.pc = .returned → s.pipe.cancelled = true) ∧
  (s.pipe.cancelled = true → s.main ≠ .awaitSignal)

/-- Inputs of a run of the subscriber's `main`. -/
structure Env where
  /-- The token returned by `client.Connect()`. -/
  connectToken : Token
  /-- The token returned by `client.Subscribe(topic, 1, nil)`. -/
  subscribeToken : Token
  /-- Whether an interrupt or termination signal is ever delivered. -/
  signal : Bool

/-- The function `main` of the subscriber.  The value of `env.subscribeToken`
is not read: the source calls `token.Wait()` on it and nothing else. -/
def main (env : Env) : Run :=
  if env.connectToken.Wait && env.connectToken.Error != none then
    { trace := [.connect],
      outcome := .panicked (env.connectToken.Error.getD "") }
  else
    Run.after
      [ .connect,
        .withCancel,
        .wgAdd 1,
        .goWorker,
        .subscribe topic 1,
        .tokenWait,
        .print ("Subscribed to topic: " ++ topic),
        .signalNotify ]
      (if env.signal then
        { trace :=
            [ .recvSignal,
              .cancel,
              .print "Unsubscribing and disconnecting...",
              .unsubscribe topic,
              .disconnect 250,
              .wgWait,
              .print "Goroutine terminated, exiting..." ],
          outcome := .exited }
      else
        { trace := [], outcome := .awaitingSignal })

end Subscriber

end MqttStudy

namespace MqttStudy

/-! ## Theorems: simple publisher -/

/-- C3: for every index `i` with `i < 5` that `rand.Intn(len(messages))` can
return, `generateRandomMessage` returns the `i`-th of the five literal strings
without an out-of-range index; every payload so produced is one of the five
strings and each of the five strings is produced by some draw below 5. -/
theorem generateRandomMessage_simple_spec :
    Simple.messages.length = 5 ∧
    Simple.messages =
      ["Hello, World!", "Greetings from Go!", "MQTT is awesome!",
       "Random message incoming!", "Go is fun!"] ∧
    (∀ i : Nat, i < 5 →
      ∃ s, Simple.generateRandomMessage i = some s ∧
        Simple.messages[i]? = some s ∧ s ∈ Simple.messages) ∧
    (∀ s, s ∈ Simple.messages →
      ∃ i : Nat, i < 5 ∧ Simple.generateRandomMessage i = some s) := by
  refine ⟨rfl, rfl, ?_, ?_⟩
  · intro i hi
    interval_cases i <;> simp [Simple.generateRandomMessage, Simple.messages]
  · intro s hs
    simp only [Simple.messages, List.mem_cons, List.mem_singleton, List.not_mem_nil,
      or_false] at hs
    rcases hs with h | h | h | h | h
    · exact ⟨0, by decide, by simp [h, Simple.generateRandomMessage, Simple.messages]⟩
    · exact ⟨1, by decide, by simp [h, Simple.generateRandomMessage, Simple.messages]⟩
    · exact ⟨2, by decide, by simp [h, Simple.generateRandomMessage, Simple.messages]⟩
    · exact ⟨3, by decide, by simp [h, Simple.generateRandomMessage, Simple.messages]⟩
    · exact ⟨4, by decide, by simp [h, Simple.generateRandomMessage, Simple.messages]⟩

/-! ## Theorems: telemetry publisher -/

/-- C2: for every generation instant `t` and every draw `U` of `rand.Intn(40)`
with `0 ≤ U < 40`, `generateRandomMessage` yields a record with time `t`,
device id "bracelet-123", device type "bracelet" and device data the one-entry
map from "heart_rate" to `U + 60`, an integer in `[60, 100)`; the JSON form of
the record has exactly the field names time, device_id, device_type and
device_data, and carries the device data under device_data. -/
theorem generateRandomMessage_telemetry_spec (t : Nat) (U : Int)
    (hlo : 0 ≤ U) (hhi : U < 40) :
    (Telemetry.generateRandomMessage t U).Time = t ∧
    (Telemetry.generateRandomMessage t U).DeviceId = "bracelet-123" ∧
    (Telemetry.generateRandomMessage t U).DeviceType = "bracelet" ∧
    (∃ hr : Int,
      (Telemetry.generateRandomMessage t U).DeviceData =
        Telemetry.Value.object [("heart_rate", Telemetry.Value.int hr)] ∧
      hr = U + 60 ∧ 60 ≤ hr ∧ hr < 100) ∧
    (Telemetry.generateRandomMessage t U).toJson.fieldNames =
      some ["time", "device_id", "device_type", "device_data"] ∧
    (Telemetry.generateRandomMessage t U).toJson.field "time" =
      some (Telemetry.Value.instant t) ∧
    (Telemetry.generateRandomMessage t U).toJson.field "device_id" =
      some (Telemetry.Value.str "bracelet-123") ∧
    (Telemetry.generateRandomMessage t U).toJson.field "device_type" =
      some (Telemetry.Value.str "bracelet") ∧
    (Telemetry.generateRandomMessage t U).toJson.field "device_data" =
      some (Telemetry.Value.object [("heart_rate", Telemetry.Value.int (U + 60))]) := by
  refine ⟨rfl, rfl, rfl, ⟨U + 60, rfl, rfl, by omega, by omega⟩, rfl, ?_, ?_, ?_, ?_⟩ <;>
    simp [Telemetry.generateRandomMessage, Telemetry.Message.toJson, Telemetry.Value.field,
      List.find?]

/-- Witness of C2 at instant 1700000000 and draw 12: heart rate 72. -/
theorem generateRandomMessage_telemetry_spec_witness :
    (Telemetry.generateRandomMessage 1700000000 12).Time = 1700000000 ∧
    (Telemetry.generateRandomMessage 1700000000 12).toJson.field "device_data" =
      some (Telemetry.Value.object [("heart_rate", Telemetry.Value.int (12 + 60))]) :=
  ⟨(generateRandomMessage_telemetry_spec 1700000000 12 (by decide) (by decide)).1,
   (generateRandomMessage_telemetry_spec 1700000000 12 (by decide) (by decide)).2.2.2.2.2.2.2.2⟩

/-- A failed encoding contributes its log line and nothing else, whatever the
loop does afterwards. -/
theorem Telemetry.publishLoop_of_error (marshal : Telemetry.Message → Except String Payload)
    (render : Telemetry.Message → String) (tick : Telemetry.Tick) (rest : List Telemetry.Tick)
    (err : String) (hsig : tick.signalPending = false)
    (hfail : marshal (Telemetry.generateRandomMessage tick.now tick.draw) = .error err) :
    Telemetry.publishLoop marshal render (tick :: rest) =
      Run.after [.print ("JSON error: " ++ err)] (Telemetry.publishLoop marshal render rest) := by
  simp [Telemetry.publishLoop, hsig, hfail]

/-- A successful encoding is published, waited for, reported and followed by
the one second sleep. -/
theorem Telemetry.publishLoop_of_ok (marshal : Telemetry.Message → Except String Payload)
    (render : Telemetry.Message → String) (tick : Telemetry.Tick) (rest : List Telemetry.Tick)
    (payload : Payload) (hsig : tick.signalPending = false)
    (hok : marshal (Telemetry.generateRandomMessage tick.now tick.draw) = .ok payload) :
    Telemetry.publishLoop marshal render (tick :: rest) =
      Run.after
        [ .publish Telemetry.topic 0 false payload,
          .tokenWait,
          .print ("Published: " ++
            render (Telemetry.generateRandomMessage tick.now tick.draw)),
          .sleep 1000 ]
        (Telemetry.publishLoop marshal render rest) := by
  simp [Telemetry.publishLoop, hsig, hok]

/-- A run of the loop that leaves the loop has disconnected with 250 ms. -/
theorem Telemetry.publishLoop_exited_disconnects
    (marshal : Telemetry.Message → Except String Payload)
    (render : Telemetry.Message → String) (ticks : List Telemetry.Tick) :
    (Telemetry.publishLoop marshal render ticks).outcome = .exited →
      Action.disconnect 250 ∈ (Telemetry.publishLoop marshal render ticks).trace := by
  induction ticks with
  | nil => simp [Telemetry.publishLoop]
  | cons tick rest ih =>
    intro h
    unfold Telemetry.publishLoop at h ⊢
    by_cases hs : tick.signalPending = true
    · simp [hs]
    · simp only [hs, Bool.false_eq_true, if_false] at h ⊢
      cases hm : marshal (Telemetry.generateRandomMessage tick.now tick.draw) with
      | error err =>
        simp only [hm, Run.after] at h ⊢
        simp [ih h]
      | ok payload =>
        simp only [hm, Run.after] at h ⊢
        simp [ih h]

/-- C8: in the telemetry publisher, an iteration of the main loop in which
`json.Marshal` fails (no signal pending) logs the error and does nothing else:
no publish is issued for that record and the loop goes on with the remaining
iterations unchanged; taken alone the iteration leaves the program inside the
loop, without disconnect or exit; and when the next iteration meets no signal
and encodes successfully, its record is published right after the log line. -/
theorem encode_failure_is_skipped (marshal : Telemetry.Message → Except String Payload)
    (render : Telemetry.Message → String) (tick : Telemetry.Tick) (rest : List Telemetry.Tick)
    (err : String) (hsig : tick.signalPending = false)
    (hfail : marshal (Telemetry.generateRandomMessage tick.now tick.draw) = .error err) :
    Telemetry.publishLoop marshal render (tick :: rest) =
      Run.after [.print ("JSON error: " ++ err)] (Telemetry.publishLoop marshal render rest) ∧
    Telemetry.publishLoop marshal render [tick] =
      { trace := [.print ("JSON error: " ++ err)], outcome := .looping } ∧
    (∀ (next : Telemetry.Tick) (later : List Telemetry.Tick) (payload : Payload),
      rest = next :: later → next.signalPending = false →
      marshal (Telemetry.generateRandomMessage next.now next.draw) = .ok payload →
      Telemetry.publishLoop marshal render (tick :: rest) =
        Run.after
          [ .print ("JSON error: " ++ err),
            .publish Telemetry.topic 0 false payload,
            .tokenWait,
            .print ("Published: " ++
              render (Telemetry.generateRandomMessage next.now next.draw)),
            .sleep 1000 ]
          (Telemetry.publishLoop marshal render later)) := by
  refine ⟨Telemetry.publishLoop_of_error marshal render tick rest err hsig hfail, ?_, ?_⟩
  · rw [Telemetry.publishLoop_of_error marshal render tick [] err hsig hfail]
    simp [Telemetry.publishLoop, Run.after]
  · intro next later payload hrest hnext hok
    subst hrest
    rw [Telemetry.publishLoop_of_error marshal render tick _ err hsig hfail,
      Telemetry.publishLoop_of_ok marshal render next later payload hnext hok]
    simp [Run.after]

/-- Witness of C8: an encoder that rejects the record generated at instant 1
and accepts every other one, over two iterations without a signal. -/
theorem encode_failure_is_skipped_witness :
    Telemetry.publishLoop
        (fun m => if m.Time = 1 then .error "unsupported value" else .ok "payload")
        (fun _ => "record")
        [⟨false, 1, 7⟩, ⟨false, 2, 8⟩] =
      { trace :=
          [ .print "JSON error: unsupported value",
            .publish "iot-messages" 0 false "payload",
            .tokenWait,
            .print "Published: record",
            .sleep 1000 ],
        outcome := .looping } := by
  have h := (encode_failure_is_skipped
    (fun m => if m.Time = 1 then .error "unsupported value" else .ok "payload")
    (fun _ => "record") ⟨false, 1, 7⟩ [⟨false, 2, 8⟩] "unsupported value" rfl rfl).2.2
    ⟨false, 2, 8⟩ [] "payload" rfl rfl rfl
  rw [h]
  rfl

/-! ## Theorems: connection failure -/

/-- C6: in each of the three programs, when the connect token reports the error
`e`, the run consists of the connect attempt alone and ends in a panic carrying
`e`, with a non-zero exit status: no publish and no subscribe is performed,
and the telemetry publisher does not print "Connected to MQTT broker". -/
theorem connect_failure_panics (e : String)
    (simple : Simple.Env) (telemetry : Telemetry.Env) (subscriber : Subscriber.Env)
    (h₁ : simple.connectToken.Error = some e)
    (h₂ : telemetry.connectToken.Error = some e)
    (h₃ : subscriber.connectToken.Error = some e) :
    (Simple.main simple = { trace := [.connect], outcome := .panicked e } ∧
      Telemetry.main telemetry = { trace := [.connect], outcome := .panicked e } ∧
      Subscriber.main subscriber = { trace := [.connect], outcome := .panicked e }) ∧
    (Outcome.panicked e).exitStatus = some 2 ∧
    (∀ a ∈ (Simple.main simple).trace, a.isPublish = false ∧ a.isSubscribe = false) ∧
    (∀ a ∈ (Telemetry.main telemetry).trace, a.isPublish = false ∧ a.isSubscribe = false) ∧
    (∀ a ∈ (Subscriber.main subscriber).trace, a.isPublish = false ∧ a.isSubscribe = false) ∧
    Action.print "Connected to MQTT broker" ∉ (Telemetry.main telemetry).trace := by
  have e₁ : Simple.main simple = { trace := [.connect], outcome := .panicked e } := by
    simp [Simple.main, Token.Wait, h₁]
  have e₂ : Telemetry.main telemetry = { trace := [.connect], outcome := .panicked e } := by
    simp [Telemetry.main, Token.Wait, h₂]
  have e₃ : Subscriber.main subscriber = { trace := [.connect], outcome := .panicked e } := by
    simp [Subscriber.main, Token.Wait, h₃]
  refine ⟨⟨e₁, e₂, e₃⟩, rfl, ?_, ?_, ?_, ?_⟩
  · rw [e₁]; simp [Action.isPublish, Action.isSubscribe]
  · rw [e₂]; simp [Action.isPublish, Action.isSubscribe]
  · rw [e₃]; simp [Action.isPublish, Action.isSubscribe]
  · rw [e₂]; simp

/-- Witness of C6: the three programs with a connect token reporting
"connection refused". -/
theorem connect_failure_panics_witness :
    Simple.main { connectToken := ⟨some "connection refused"⟩, draws := [0, 1] } =
        { trace := [.connect], outcome := .panicked "connection refused" } ∧
    Telemetry.main
        { connectToken := ⟨some "connection refused"⟩,
          marshal := fun _ => .ok "payload",
          render := fun _ => "record",
          ticks := [⟨false, 1, 7⟩] } =
        { trace := [.connect], outcome := .panicked "connection refused" } ∧
    Subscriber.main
        { connectToken := ⟨some "connection refused"⟩,
          subscribeToken := ⟨none⟩,
          signal := true } =
        { trace := [.connect], outcome := .panicked "connection refused" } :=
  (connect_failure_panics "connection refused"
    { connectToken := ⟨some "connection refused"⟩, draws := [0, 1] }
    { connectToken := ⟨some "connection refused"⟩,
      marshal := fun _ => .ok "payload",
      render := fun _ => "record",
      ticks := [⟨false, 1, 7⟩] }
    { connectToken := ⟨some "connection refused"⟩,
      subscribeToken := ⟨none⟩,
      signal := true }
    rfl rfl rfl).1

/-- C7, as stated, fails: the telemetry publisher whose connect token reports
"connection refused" ends in a panic, a fatal exit, and its run holds no
client disconnect. -/
theorem fatal_exit_without_disconnect :
    (Telemetry.main
        { connectToken := ⟨some "connection refused"⟩,
          marshal := fun _ => .ok "payload",
          render := fun _ => "record",
          ticks := [] }).outcome = .panicked "connection refused" ∧
    ¬ ∃ a ∈ (Telemetry.main
        { connectToken := ⟨some "connection refused"⟩,
          marshal := fun _ => .ok "payload",
          render := fun _ => "record",
          ticks := [] }).trace, a.isDisconnect = true := by
  simp [Telemetry.main, Token.Wait, Token.Error, Action.isDisconnect]

/-- C7, amended: when the connect token reports an error, each of the three
programs panics right after the connect attempt (the connect is all its run
holds) and performs no client disconnect; the disconnect with a 250 ms grace belongs to the exit by return
from `main`: every run of the telemetry publisher or of the subscriber that
returns from `main` has performed it. -/
theorem disconnect_only_on_return (e : String)
    (simple : Simple.Env) (telemetry : Telemetry.Env) (subscriber : Subscriber.Env)
    (h₁ : simple.connectToken.Error = some e)
    (h₂ : telemetry.connectToken.Error = some e)
    (h₃ : subscriber.connectToken.Error = some e) :
    ((Simple.main simple).outcome = .panicked e ∧
      ∀ a ∈ (Simple.main simple).trace, a.isDisconnect = false) ∧
    ((Telemetry.main telemetry).outcome = .panicked e ∧
      ∀ a ∈ (Telemetry.main telemetry).trace, a.isDisconnect = false) ∧
    ((Subscriber.main subscriber).outcome = .panicked e ∧
      ∀ a ∈ (Subscriber.main subscriber).trace, a.isDisconnect = false) ∧
    (∀ env : Telemetry.Env, (Telemetry.main env).outcome = .exited →
      Action.disconnect 250 ∈ (Telemetry.main env).trace) ∧
    (∀ env : Subscriber.Env, (Subscriber.main env).outcome = .exited →
      Action.disconnect 250 ∈ (Subscriber.main env).trace) ∧
    (Simple.main simple).trace = [.connect] ∧
    (Telemetry.main telemetry).trace = [.connect] ∧
    (Subscriber.main subscriber).trace = [.connect] := by
  refine ⟨?_, ?_, ?_, ?_, ?_, ?_, ?_, ?_⟩
  rotate_right 3
  · simp [Simple.main, Token.Wait, h₁]
  · simp [Telemetry.main, Token.Wait, h₂]
  · simp [Subscriber.main, Token.Wait, h₃]
  · simp [Simple.main, Token.Wait, h₁, Action.isDisconnect]
  · simp [Telemetry.main, Token.Wait, h₂, Action.isDisconnect]
  · simp [Subscriber.main, Token.Wait, h₃, Action.isDisconnect]
  · intro env h
    unfold Telemetry.main at h ⊢
    split at h
    · simp at h
    · rename_i hc
      simp only [hc, Run.after] at h ⊢
      simp only [Bool.false_eq_true, if_false, List.mem_append]
      exact Or.inr (Telemetry.publishLoop_exited_disconnects _ _ _ h)
  · intro env h
    unfold Subscriber.main at h ⊢
    split at h
    · simp at h
    · rename_i hc
      by_cases hs : env.signal = true
      · simp [hc, hs, Run.after]
      · simp [hs, Run.after] at h

/-- Witness of the amended C7: the three programs with a connect token
reporting "connection refused" panic without a disconnect. -/
theorem disconnect_only_on_return_witness :
    (Simple.main { connectToken := ⟨some "connection refused"⟩, draws := [3] }).outcome =
      .panicked "connection refused" ∧
    ∀ a ∈ (Simple.main { connectToken := ⟨some "connection refused"⟩, draws := [3] }).trace,
      a.isDisconnect = false :=
  (disconnect_only_on_return "connection refused"
    { connectToken := ⟨some "connection refused"⟩, draws := [3] }
    { connectToken := ⟨some "connection refused"⟩,
      marshal := fun _ => .ok "payload",
      render := fun _ => "record",
      ticks := [] }
    { connectToken := ⟨some "connection refused"⟩,
      subscribeToken := ⟨none⟩,
      signal := false }
    rfl rfl rfl).1

/-! ## Theorems: subscriber `main` -/

/-- C4: in every run of the subscriber that receives a shutdown signal, what
`main` does from the signal on is, in this order: call `cancel()`, announce the
shutdown, unsubscribe from the topic, disconnect with a 250 ms grace, wait for
the worker with `wg.Wait()`, print the final line; then it returns.  Nothing
follows the final line and the signal is received once. -/
theorem shutdown_sequence (env : Subscriber.Env)
    (hsig : Action.recvSignal ∈ (Subscriber.main env).trace) :
    (∃ before : List Action,
      Action.recvSignal ∉ before ∧
      (Subscriber.main env).trace =
        before ++
          [ .recvSignal,
            .cancel,
            .print "Unsubscribing and disconnecting...",
            .unsubscribe "iot-messages",
            .disconnect 250,
            .wgWait,
            .print "Goroutine terminated, exiting..." ]) ∧
    (Subscriber.main env).outcome = .exited := by
  unfold Subscriber.main at hsig ⊢
  split
  · rename_i hc
    simp [hc] at hsig
  · rename_i hc
    by_cases hs : env.signal = true
    · refine ⟨⟨[ .connect, .withCancel, .wgAdd 1, .goWorker, .subscribe Subscriber.topic 1,
        .tokenWait, .print ("Subscribed to topic: " ++ Subscriber.topic), .signalNotify ],
        by simp, ?_⟩, ?_⟩
      · simp [hs, Run.after, Subscriber.topic]
      · simp [hs, Run.after]
    · simp [hc, hs, Run.after] at hsig

/-- Witness of C4: a run with successful connect and subscribe and a signal. -/
theorem shutdown_sequence_witness :
    (Subscriber.main
      { connectToken := ⟨none⟩, subscribeToken := ⟨none⟩, signal := true }).outcome =
        .exited :=
  (shutdown_sequence
    { connectToken := ⟨none⟩, subscribeToken := ⟨none⟩, signal := true }
    (by simp [Subscriber.main, Token.Wait, Token.Error, Run.after])).2

/-- C5, evaluated on the code: with a successful connect and a subscribe
token that reports "not authorized", the subscriber does not terminate: it
prints "Subscribed to topic: iot-messages" and goes on to wait for a signal. -/
theorem subscribe_error_is_ignored :
    Subscriber.main
        { connectToken := ⟨none⟩,
          subscribeToken := ⟨some "not authorized"⟩,
          signal := false } =
      { trace :=
          [ .connect,
            .withCancel,
            .wgAdd 1,
            .goWorker,
            .subscribe "iot-messages" 1,
            .tokenWait,
            .print "Subscribed to topic: iot-messages",
            .signalNotify ],
        outcome := .awaitingSignal } := by
  simp [Subscriber.main, Token.Wait, Token.Error, Run.after, Subscriber.topic]

/-! ## Lemmas: the goroutine of `processMsg` -/

theorem Subscriber.Worker.step_recv (w w' : Subscriber.Worker) (msg : Subscriber.Message)
    (h : w.step (.recv msg) = some w') :
    w.pc = .select ∧ w'.pc = .forward msg ∧
      w'.stdout = w.stdout ++ [Subscriber.receivedLine msg] ∧ w'.out = w.out := by
  cases hpc : w.pc <;> simp [Subscriber.Worker.step, hpc] at h
  subst h
  simp

theorem Subscriber.Worker.step_inputClosed (w w' : Subscriber.Worker)
    (h : w.step .inputClosed = some w') :
    w.pc = .select ∧ w'.pc = .returned ∧ w'.stdout = w.stdout ∧
      w'.out = w.out ++ [.close] := by
  cases hpc : w.pc <;> simp [Subscriber.Worker.step, hpc] at h
  subst h
  simp

theorem Subscriber.Worker.step_ctxDone (w w' : Subscriber.Worker)
    (h : w.step .ctxDone = some w') :
    w.pc = .select ∧ w'.pc = .returned ∧ w'.stdout = w.stdout ∧
      w'.out = w.out ++ [.close] := by
  cases hpc : w.pc <;> simp [Subscriber.Worker.step, hpc] at h
  subst h
  simp

theorem Subscriber.Worker.step_outTaken (w w' : Subscriber.Worker)
    (h : w.step .outTaken = some w') :
    ∃ msg, w.pc = .forward msg ∧ w'.pc = .select ∧ w'.stdout = w.stdout ∧
      w'.out = w.out ++ [.send msg] := by
  cases hpc : w.pc <;> simp [Subscriber.Worker.step, hpc] at h
  subst h
  simp

/-- A returned worker takes no further step. -/
theorem Subscriber.Worker.step_returned (w : Subscriber.Worker) (e : Subscriber.WorkerEvent)
    (h : w.pc = .returned) : w.step e = none := by
  cases e <;> simp [Subscriber.Worker.step, h]

/-- What the worker prints along a schedule is one line per message received,
in order. -/
theorem Subscriber.Worker.run_stdout (evs : List Subscriber.WorkerEvent) :
    ∀ w w' : Subscriber.Worker, w.run evs = some w' →
      w'.stdout = w.stdout ++ (Subscriber.receivedOf evs).map Subscriber.receivedLine := by
  induction evs with
  | nil =>
    intro w w' h
    simp [Subscriber.Worker.run] at h
    simp [Subscriber.receivedOf, h]
  | cons e rest ih =>
    intro w w' h
    unfold Subscriber.Worker.run at h
    cases hs : w.step e with
    | none => simp [hs] at h
    | some w₁ =>
      simp only [hs] at h
      have hrest := ih w₁ w' h
      cases e with
      | recv msg =>
        obtain ⟨_, _, hout, _⟩ := Subscriber.Worker.step_recv w w₁ msg hs
        simp [hrest, hout, Subscriber.receivedOf]
      | inputClosed =>
        obtain ⟨_, _, hout, _⟩ := Subscriber.Worker.step_inputClosed w w₁ hs
        simp [hrest, hout, Subscriber.receivedOf]
      | ctxDone =>
        obtain ⟨_, _, hout, _⟩ := Subscriber.Worker.step_ctxDone w w₁ hs
        simp [hrest, hout, Subscriber.receivedOf]
      | outTaken =>
        obtain ⟨_, _, _, hout, _⟩ := Subscriber.Worker.step_outTaken w w₁ hs
        simp [hrest, hout, Subscriber.receivedOf]

theorem Subscriber.Worker.step_outShape (w w' : Subscriber.Worker) (e : Subscriber.WorkerEvent)
    (sent : List Subscriber.Message) (h : w.step e = some w') (hw : w.outShape sent) :
    ∃ sent', w'.outShape sent' := by
  cases e with
  | recv msg =>
    obtain ⟨hpc, hpc', _, hout⟩ := Subscriber.Worker.step_recv w w' msg h
    refine ⟨sent, ?_, ?_⟩
    · intro hr; simp [hpc'] at hr
    · intro _; rw [hout]; exact hw.2 (by simp [hpc])
  | inputClosed =>
    obtain ⟨hpc, hpc', _, hout⟩ := Subscriber.Worker.step_inputClosed w w' h
    refine ⟨sent, ?_, ?_⟩
    · intro _; rw [hout, hw.2 (by simp [hpc])]
    · intro hr; exact absurd hpc' hr
  | ctxDone =>
    obtain ⟨hpc, hpc', _, hout⟩ := Subscriber.Worker.step_ctxDone w w' h
    refine ⟨sent, ?_, ?_⟩
    · intro _; rw [hout, hw.2 (by simp [hpc])]
    · intro hr; exact absurd hpc' hr
  | outTaken =>
    obtain ⟨msg, hpc, hpc', _, hout⟩ := Subscriber.Worker.step_outTaken w w' h
    refine ⟨sent ++ [msg], ?_, ?_⟩
    · intro hr; simp [hpc'] at hr
    · intro _; rw [hout, hw.2 (by simp [hpc])]; simp

theorem Subscriber.Worker.run_outShape (evs : List Subscriber.WorkerEvent) :
    ∀ (w w' : Subscriber.Worker) (sent : List Subscriber.Message),
      w.run evs = some w' → w.outShape sent → ∃ sent', w'.outShape sent' := by
  induction evs with
  | nil =>
    intro w w' sent h hw
    simp [Subscriber.Worker.run] at h
    exact ⟨sent, h ▸ hw⟩
  | cons e rest ih =>
    intro w w' sent h hw
    unfold Subscriber.Worker.run at h
    cases hs : w.step e with
    | none => simp [hs] at h
    | some w₁ =>
      simp only [hs] at h
      obtain ⟨sent₁, h₁⟩ := Subscriber.Worker.step_outShape w w₁ e sent hs hw
      exact ih w₁ w' sent₁ h h₁

theorem Subscriber.Worker.init_outShape : Subscriber.Worker.init.outShape [] := by
  constructor
  · intro h; simp [Subscriber.Worker.init] at h
  · intro _; simp [Subscriber.Worker.init]

theorem Subscriber.closeCount_sends (sent : List Subscriber.Message) :
    Subscriber.closeCount (sent.map Subscriber.OutOp.send) = 0 := by
  induction sent with
  | nil => rfl
  | cons m rest ih =>
    simp only [Subscriber.closeCount] at ih ⊢
    simp [List.count_cons, ih]

theorem Subscriber.closeCount_sends_close (sent : List Subscriber.Message) :
    Subscriber.closeCount (sent.map Subscriber.OutOp.send ++ [.close]) = 1 := by
  have h := Subscriber.closeCount_sends sent
  simp only [Subscriber.closeCount] at h ⊢
  simp [List.count_append, h]

theorem Subscriber.drainLoop_sends_close (sent : List Subscriber.Message) :
    Subscriber.drainLoop (sent.map Subscriber.OutOp.send ++ [.close]) =
      { taken := sent, ended := true } := by
  induction sent with
  | nil => rfl
  | cons m rest ih => simp [Subscriber.drainLoop, ih]

theorem Subscriber.drainLoop_sends (sent : List Subscriber.Message) :
    Subscriber.drainLoop (sent.map Subscriber.OutOp.send) =
      { taken := sent, ended := false } := by
  induction sent with
  | nil => rfl
  | cons m rest ih => simp [Subscriber.drainLoop, ih]

/-! ## Lemmas: the pipeline of the subscriber -/

/-- Along a schedule of the pipeline the messages handed to the handler are, in
order, those already printed followed by those still standing in the send. -/
theorem Subscriber.Pipeline.run_delivered (evs : List Subscriber.PipelineEvent) :
    ∀ (p p' : Subscriber.Pipeline) (printed : List Subscriber.Message),
      p.run evs = some p' →
      p.worker.stdout = printed.map Subscriber.receivedLine →
      ∃ printed', printed ++ p.blocked ++ Subscriber.deliveredOf evs = printed' ++ p'.blocked ∧
        p'.worker.stdout = printed'.map Subscriber.receivedLine := by
  induction evs with
  | nil =>
    intro p p' printed h hp
    simp [Subscriber.Pipeline.run] at h
    subst h
    exact ⟨printed, by simp [Subscriber.deliveredOf], hp⟩
  | cons e rest ih =>
    intro p p' printed h hp
    unfold Subscriber.Pipeline.run at h
    cases hs : p.step e with
    | none => simp [hs] at h
    | some p₁ =>
      simp only [hs] at h
      cases e with
      | deliver msg =>
        simp [Subscriber.Pipeline.step] at hs
        subst hs
        obtain ⟨q, hq, hq'⟩ := ih _ p' printed h hp
        exact ⟨q, by simpa [Subscriber.deliveredOf] using hq, hq'⟩
      | cancel =>
        simp [Subscriber.Pipeline.step] at hs
        subst hs
        obtain ⟨q, hq, hq'⟩ := ih _ p' printed h hp
        exact ⟨q, by simpa [Subscriber.deliveredOf] using hq, hq'⟩
      | workerRecv =>
        cases hb : p.blocked with
        | nil => simp [Subscriber.Pipeline.step, hb] at hs
        | cons msg later =>
          simp only [Subscriber.Pipeline.step, hb, Option.map_eq_some'] at hs
          obtain ⟨w, hw, hp₁⟩ := hs
          subst hp₁
          obtain ⟨_, _, hout, _⟩ := Subscriber.Worker.step_recv p.worker w msg hw
          obtain ⟨q, hq, hq'⟩ := ih _ p' (printed ++ [msg]) h (by simp [hout, hp])
          exact ⟨q, by simpa [Subscriber.deliveredOf] using hq, hq'⟩
      | workerDone =>
        by_cases hc : p.cancelled = true
        · simp only [Subscriber.Pipeline.step, hc, if_true, Option.map_eq_some'] at hs
          obtain ⟨w, hw, hp₁⟩ := hs
          subst hp₁
          obtain ⟨_, _, hout, _⟩ := Subscriber.Worker.step_ctxDone p.worker w hw
          obtain ⟨q, hq, hq'⟩ := ih _ p' printed h (by simp [hout, hp])
          exact ⟨q, by simpa [Subscriber.deliveredOf] using hq, hq'⟩
        · simp [Subscriber.Pipeline.step, hc] at hs
      | drainTake =>
        simp only [Subscriber.Pipeline.step, Option.map_eq_some'] at hs
        obtain ⟨w, hw, hp₁⟩ := hs
        subst hp₁
        obtain ⟨_, _, _, hout, _⟩ := Subscriber.Worker.step_outTaken p.worker w hw
        obtain ⟨q, hq, hq'⟩ := ih _ p' printed h (by simp [hout, hp])
        exact ⟨q, by simpa [Subscriber.deliveredOf] using hq, hq'⟩

/-- The steady schedule is enabled from an idle pipeline and processes every
message. -/
theorem Subscriber.Pipeline.run_steady (ms : List Subscriber.Message) :
    ∀ p : Subscriber.Pipeline, p.worker.pc = .select → p.blocked = [] →
      ∃ p', p.run (Subscriber.steadySchedule ms) = some p' ∧
        p'.worker.pc = .select ∧ p'.blocked = [] ∧ p'.cancelled = p.cancelled ∧
        p'.worker.stdout = p.worker.stdout ++ ms.map Subscriber.receivedLine ∧
        p'.worker.out = p.worker.out ++ ms.map Subscriber.OutOp.send := by
  induction ms with
  | nil =>
    intro p hpc hb
    exact ⟨p, by simp [Subscriber.steadySchedule, Subscriber.Pipeline.run], hpc, hb, rfl,
      by simp, by simp⟩
  | cons msg rest ih =>
    intro p hpc hb
    obtain ⟨p', hrun, h₁, h₂, h₃, h₄, h₅⟩ := ih
      { cancelled := p.cancelled, blocked := [],
        worker := { pc := .select, stdout := p.worker.stdout ++ [Subscriber.receivedLine msg],
                    out := p.worker.out ++ [.send msg] } } rfl rfl
    refine ⟨p', ?_, h₁, h₂, h₃, by simpa using h₄, by simpa using h₅⟩
    simp [Subscriber.steadySchedule, Subscriber.Pipeline.run, Subscriber.Pipeline.step, hb,
      Subscriber.Worker.step, hpc, hrun]

/-- Once the worker has returned, no schedule changes it and every send of a
handler that stands keeps standing. -/
theorem Subscriber.Pipeline.run_after_return (evs : List Subscriber.PipelineEvent) :
    ∀ p p' : Subscriber.Pipeline, p.worker.pc = .returned → p.run evs = some p' →
      p'.worker = p.worker ∧ ∃ more, p'.blocked = p.blocked ++ more := by
  induction evs with
  | nil =>
    intro p p' _ h
    simp [Subscriber.Pipeline.run] at h
    subst h
    exact ⟨rfl, [], by simp⟩
  | cons e rest ih =>
    intro p p' hpc h
    unfold Subscriber.Pipeline.run at h
    cases hs : p.step e with
    | none => simp [hs] at h
    | some p₁ =>
      simp only [hs] at h
      cases e with
      | deliver msg =>
        simp [Subscriber.Pipeline.step] at hs
        have hw : p₁.worker = p.worker := by rw [← hs]
        have hb : p₁.blocked = p.blocked ++ [msg] := by rw [← hs]
        obtain ⟨hw', more, hm⟩ := ih p₁ p' (by rw [hw]; exact hpc) h
        exact ⟨hw'.trans hw, [msg] ++ more, by rw [hm, hb]; simp⟩
      | cancel =>
        simp [Subscriber.Pipeline.step] at hs
        have hw : p₁.worker = p.worker := by rw [← hs]
        have hb : p₁.blocked = p.blocked := by rw [← hs]
        obtain ⟨hw', more, hm⟩ := ih p₁ p' (by rw [hw]; exact hpc) h
        exact ⟨hw'.trans hw, more, by rw [hm, hb]⟩
      | workerRecv =>
        cases hb : p.blocked with
        | nil => simp [Subscriber.Pipeline.step, hb] at hs
        | cons msg later =>
          simp [Subscriber.Pipeline.step, hb, Subscriber.Worker.step_returned _ _ hpc] at hs
      | workerDone =>
        by_cases hc : p.cancelled = true
        · simp [Subscriber.Pipeline.step, hc, Subscriber.Worker.step_returned _ _ hpc] at hs
        · simp [Subscriber.Pipeline.step, hc] at hs
      | drainTake =>
        simp [Subscriber.Pipeline.step, Subscriber.Worker.step_returned _ _ hpc] at hs

theorem Subscriber.deliveredOf_steady (ms : List Subscriber.Message) :
    Subscriber.deliveredOf (Subscriber.steadySchedule ms) = ms := by
  induction ms with
  | nil => rfl
  | cons msg rest ih => simp [Subscriber.steadySchedule, Subscriber.deliveredOf, ih]

/-! ## Theorems: the pipeline of the subscriber -/

/-- C1: for every finite sequence `ms` of inbound messages, the run of the
pipeline in which each message is pushed by the ingress handler, received by
`processMsg` before any cancellation and taken from `out` by the drain loop is
possible, and in it the processor prints exactly one line per message, the
i-th line being "Received message: <payload> from topic: <topic>" of the i-th
message.  More generally, whatever the schedule, the lines printed are those
of the messages received from `in`, in order, and the messages pushed by the
handler are, in order, the printed ones followed by those whose push still
stands: none is printed twice, none is lost, none overtakes another. -/
theorem processMsg_prints_each_message_once (ms : List Subscriber.Message) :
    (∃ p, Subscriber.Pipeline.init.run (Subscriber.steadySchedule ms) = some p ∧
      Subscriber.deliveredOf (Subscriber.steadySchedule ms) = ms ∧
      p.cancelled = false ∧ p.blocked = [] ∧
      p.worker.stdout = ms.map Subscriber.receivedLine ∧
      p.worker.stdout.length = ms.length ∧
      (∀ (i : Nat) (msg : Subscriber.Message), ms[i]? = some msg →
        p.worker.stdout[i]? =
          some ("Received message: " ++ msg.payload ++ " from topic: " ++ msg.topic)) ∧
      (Subscriber.drainLoop p.worker.out).taken = ms) ∧
    (∀ (evs : List Subscriber.WorkerEvent) (w : Subscriber.Worker),
      Subscriber.Worker.init.run evs = some w → Subscriber.receivedOf evs = ms →
      w.stdout = ms.map Subscriber.receivedLine ∧ w.stdout.length = ms.length) ∧
    (∀ (evs : List Subscriber.PipelineEvent) (p : Subscriber.Pipeline),
      Subscriber.Pipeline.init.run evs = some p → Subscriber.deliveredOf evs = ms →
      ∃ printed, ms = printed ++ p.blocked ∧
        p.worker.stdout = printed.map Subscriber.receivedLine) := by
  refine ⟨?_, ?_, ?_⟩
  · obtain ⟨p, hrun, _, hb, hc, hout, hlog⟩ :=
      Subscriber.Pipeline.run_steady ms Subscriber.Pipeline.init rfl rfl
    have hout' : p.worker.stdout = ms.map Subscriber.receivedLine := by
      simpa [Subscriber.Pipeline.init, Subscriber.Worker.init] using hout
    have hlog' : p.worker.out = ms.map Subscriber.OutOp.send := by
      simpa [Subscriber.Pipeline.init, Subscriber.Worker.init] using hlog
    refine ⟨p, hrun, Subscriber.deliveredOf_steady ms, ?_, hb, hout', ?_, ?_, ?_⟩
    · simpa [Subscriber.Pipeline.init] using hc
    · simp [hout']
    · intro i msg hi
      rw [hout', List.getElem?_map, hi]
      rfl
    · rw [hlog', Subscriber.drainLoop_sends]
  · intro evs w hrun hrecv
    have h := Subscriber.Worker.run_stdout evs Subscriber.Worker.init w hrun
    simp only [Subscriber.Worker.init, List.nil_append, hrecv] at h
    simp [h]
  · intro evs p hrun hdel
    obtain ⟨printed, h₁, h₂⟩ :=
      Subscriber.Pipeline.run_delivered evs Subscriber.Pipeline.init p [] hrun rfl
    refine ⟨printed, ?_, h₂⟩
    simpa [Subscriber.Pipeline.init, hdel] using h₁

/-- C9: along every schedule of the goroutine of `processMsg`, once the worker
has returned (the input was closed, or the cancellation was observed) the log
of `out` consists of sends followed by exactly one `close`: `out` is closed
once, nothing is sent after the close, the worker takes no further step, and
the drain loop over `out` takes the messages sent and ends, so that
`wg.Done()` runs; as long as the worker has not returned `out` is not
closed. -/
theorem out_closed_exactly_once (evs : List Subscriber.WorkerEvent) (w : Subscriber.Worker)
    (hrun : Subscriber.Worker.init.run evs = some w) :
    (w.pc = .returned →
      (∃ sent, w.out = sent.map Subscriber.OutOp.send ++ [.close] ∧
        Subscriber.drainLoop w.out = { taken := sent, ended := true }) ∧
      Subscriber.closeCount w.out = 1 ∧
      (Subscriber.drainLoop w.out).ended = true ∧
      (∀ e, w.step e = none) ∧
      (∀ later w', w.run later = some w' → w' = w)) ∧
    (w.pc ≠ .returned →
      Subscriber.closeCount w.out = 0 ∧ (Subscriber.drainLoop w.out).ended = false) := by
  obtain ⟨sent, hret, hnot⟩ :=
    Subscriber.Worker.run_outShape evs Subscriber.Worker.init w [] hrun
      Subscriber.Worker.init_outShape
  constructor
  · intro hpc
    have hout := hret hpc
    refine ⟨⟨sent, hout, ?_⟩, ?_, ?_, ?_, ?_⟩
    · rw [hout, Subscriber.drainLoop_sends_close]
    · rw [hout, Subscriber.closeCount_sends_close]
    · rw [hout, Subscriber.drainLoop_sends_close]
    · intro e
      exact Subscriber.Worker.step_returned w e hpc
    · intro later w' h
      cases later with
      | nil => simpa [Subscriber.Worker.run] using h.symm
      | cons e rest =>
        simp [Subscriber.Worker.run, Subscriber.Worker.step_returned w e hpc] at h
  · intro hpc
    have hout := hnot hpc
    constructor
    · rw [hout, Subscriber.closeCount_sends]
    · rw [hout, Subscriber.drainLoop_sends]

/-- Witness of C9: one message received and forwarded, then the cancellation
observed. -/
theorem out_closed_exactly_once_witness :
    Subscriber.closeCount
        [Subscriber.OutOp.send ⟨"72", "iot-messages"⟩, Subscriber.OutOp.close] = 1 ∧
      (Subscriber.drainLoop
        [Subscriber.OutOp.send ⟨"72", "iot-messages"⟩, Subscriber.OutOp.close]).ended = true :=
  have h := (out_closed_exactly_once
    [.recv ⟨"72", "iot-messages"⟩, .outTaken, .ctxDone]
    { pc := .returned,
      stdout := [Subscriber.receivedLine ⟨"72", "iot-messages"⟩],
      out := [.send ⟨"72", "iot-messages"⟩, .close] }
    rfl).1 rfl
  ⟨h.2.1, h.2.2.1⟩

/-! ## Lemmas: the subscriber process during shutdown -/

theorem Subscriber.Pipeline.step_after_return (p p' : Subscriber.Pipeline)
    (e : Subscriber.PipelineEvent) (hpc : p.worker.pc = .returned) (h : p.step e = some p') :
    p'.worker = p.worker ∧ ∃ more, p'.blocked = p.blocked ++ more :=
  Subscriber.Pipeline.run_after_return [e] p p' hpc (by simp [Subscriber.Pipeline.run, h])

theorem Subscriber.Process.step_keeps_pushes (s s' : Subscriber.Process)
    (e : Subscriber.ProcessEvent) (hpc : s.pipe.worker.pc = .returned)
    (h : s.step e = some s') :
    s'.pipe.worker = s.pipe.worker ∧ ∃ more, s'.pipe.blocked = s.pipe.blocked ++ more := by
  cases e with
  | main =>
    cases hm : s.main <;> simp [Subscriber.Process.step, hm, Subscriber.Pipeline.step] at h
    all_goals first
      | (obtain ⟨_, h⟩ := h; subst h; exact ⟨rfl, [], by simp⟩)
      | (subst h; exact ⟨rfl, [], by simp⟩)
  | deliver msg =>
    cases hm : s.main <;> simp [Subscriber.Process.step, hm, Subscriber.Pipeline.step] at h
    all_goals (subst h; exact ⟨rfl, [msg], rfl⟩)
  | workerRecv =>
    simp only [Subscriber.Process.step] at h
    split at h
    · simp at h
    · simp only [Option.map_eq_some'] at h
      obtain ⟨p, hp, hs⟩ := h
      subst hs
      exact Subscriber.Pipeline.step_after_return s.pipe p _ hpc hp
  | workerDone =>
    simp only [Subscriber.Process.step] at h
    split at h
    · simp at h
    · simp only [Option.map_eq_some'] at h
      obtain ⟨p, hp, hs⟩ := h
      subst hs
      exact Subscriber.Pipeline.step_after_return s.pipe p _ hpc hp
  | drainTake =>
    simp only [Subscriber.Process.step] at h
    split at h
    · simp at h
    · simp only [Option.map_eq_some'] at h
      obtain ⟨p, hp, hs⟩ := h
      subst hs
      exact Subscriber.Pipeline.step_after_return s.pipe p _ hpc hp

/-- Once the worker has returned, no schedule of the process changes it and
every send of a handler that stands keeps standing. -/
theorem Subscriber.Process.run_keeps_pushes (evs : List Subscriber.ProcessEvent) :
    ∀ s s' : Subscriber.Process, s.pipe.worker.pc = .returned → s.run evs = some s' →
      s'.pipe.worker = s.pipe.worker ∧ ∃ more, s'.pipe.blocked = s.pipe.blocked ++ more := by
  induction evs with
  | nil =>
    intro s s' _ h
    simp [Subscriber.Process.run] at h
    subst h
    exact ⟨rfl, [], by simp⟩
  | cons e rest ih =>
    intro s s' hpc h
    unfold Subscriber.Process.run at h
    cases hs : s.step e with
    | none => simp [hs] at h
    | some s₁ =>
      simp only [hs] at h
      obtain ⟨hw₁, more₁, hm₁⟩ := Subscriber.Process.step_keeps_pushes s s₁ e hpc hs
      obtain ⟨hw₂, more₂, hm₂⟩ := ih s₁ s' (by rw [hw₁]; exact hpc) h
      exact ⟨hw₂.trans hw₁, more₁ ++ more₂, by rw [hm₂, hm₁]; simp⟩

theorem Subscriber.Pipeline.step_shape (p p' : Subscriber.Pipeline)
    (e : Subscriber.PipelineEvent) (h : p.step e = some p')
    (hs : ∃ sent, p.worker.outShape sent)
    (hc : p.worker.pc = .returned → p.cancelled = true) :
    (∃ sent, p'.worker.outShape sent) ∧
    (p'.worker.pc = .returned → p'.cancelled = true) ∧
    (e ≠ .cancel → p'.cancelled = p.cancelled) := by
  obtain ⟨sent, hsent⟩ := hs
  cases e with
  | deliver msg =>
    simp [Subscriber.Pipeline.step] at h
    subst h
    exact ⟨⟨sent, hsent⟩, hc, fun _ => rfl⟩
  | cancel =>
    simp [Subscriber.Pipeline.step] at h
    subst h
    exact ⟨⟨sent, hsent⟩, fun _ => rfl, fun hne => absurd rfl hne⟩
  | workerRecv =>
    cases hb : p.blocked with
    | nil => simp [Subscriber.Pipeline.step, hb] at h
    | cons msg later =>
      simp only [Subscriber.Pipeline.step, hb, Option.map_eq_some'] at h
      obtain ⟨w, hw, hp⟩ := h
      subst hp
      obtain ⟨_, hpc', _, _⟩ := Subscriber.Worker.step_recv p.worker w msg hw
      refine ⟨Subscriber.Worker.step_outShape p.worker w _ sent hw hsent, ?_, fun _ => rfl⟩
      intro hr
      simp [hpc'] at hr
  | workerDone =>
    by_cases hcan : p.cancelled = true
    · simp only [Subscriber.Pipeline.step, hcan, if_true, Option.map_eq_some'] at h
      obtain ⟨w, hw, hp⟩ := h
      subst hp
      exact ⟨Subscriber.Worker.step_outShape p.worker w _ sent hw hsent, fun _ => rfl,
        fun _ => hcan.symm⟩
    · simp [Subscriber.Pipeline.step, hcan] at h
  | drainTake =>
    simp only [Subscriber.Pipeline.step, Option.map_eq_some'] at h
    obtain ⟨w, hw, hp⟩ := h
    subst hp
    obtain ⟨_, _, hpc', _, _⟩ := Subscriber.Worker.step_outTaken p.worker w hw
    refine ⟨Subscriber.Worker.step_outShape p.worker w _ sent hw hsent, ?_, fun _ => rfl⟩
    intro hr
    simp [hpc'] at hr

theorem Subscriber.Process.step_pipe_wellFormed (s : Subscriber.Process)
    (p : Subscriber.Pipeline) (e : Subscriber.PipelineEvent) (hne : e ≠ .cancel)
    (hw : s.wellFormed) (hp : s.pipe.step e = some p) :
    Subscriber.Process.wellFormed { s with pipe := p } := by
  obtain ⟨h₁, h₂, h₃⟩ := hw
  obtain ⟨k₁, k₂, k₃⟩ := Subscriber.Pipeline.step_shape s.pipe p e hp h₁ h₂
  refine ⟨k₁, k₂, ?_⟩
  intro hc
  exact h₃ (by rw [← k₃ hne]; exact hc)

theorem Subscriber.Process.step_wellFormed (s s' : Subscriber.Process)
    (e : Subscriber.ProcessEvent) (hw : s.wellFormed) (h : s.step e = some s') :
    s'.wellFormed := by
  cases e with
  | main =>
    obtain ⟨h₁, h₂, h₃⟩ := hw
    cases hm : s.main <;> simp [Subscriber.Process.step, hm, Subscriber.Pipeline.step] at h
    all_goals first
      | (obtain ⟨_, h⟩ := h; subst h; exact ⟨h₁, h₂, fun _ => by simp⟩)
      | (subst h; exact ⟨h₁, fun _ => rfl, fun _ => by simp⟩)
      | (subst h; exact ⟨h₁, h₂, fun _ => by simp⟩)
  | deliver msg =>
    cases hm : s.main <;> simp only [Subscriber.Process.step, hm, Option.map_eq_some'] at h
    all_goals first
      | (obtain ⟨p, hp, hs⟩ := h
         subst hs
         have hwf := Subscriber.Process.step_pipe_wellFormed s p _ (by simp) hw hp
         rw [hm] at hwf
         exact hwf)
      | simp at h
  | workerRecv =>
    simp only [Subscriber.Process.step] at h
    split at h
    · simp at h
    · simp only [Option.map_eq_some'] at h
      obtain ⟨p, hp, hs⟩ := h
      subst hs
      exact Subscriber.Process.step_pipe_wellFormed s p _ (by simp) hw hp
  | workerDone =>
    simp only [Subscriber.Process.step] at h
    split at h
    · simp at h
    · simp only [Option.map_eq_some'] at h
      obtain ⟨p, hp, hs⟩ := h
      subst hs
      exact Subscriber.Process.step_pipe_wellFormed s p _ (by simp) hw hp
  | drainTake =>
    simp only [Subscriber.Process.step] at h
    split at h
    · simp at h
    · simp only [Option.map_eq_some'] at h
      obtain ⟨p, hp, hs⟩ := h
      subst hs
      exact Subscriber.Process.step_pipe_wellFormed s p _ (by simp) hw hp

theorem Subscriber.Process.run_wellFormed (evs : List Subscriber.ProcessEvent) :
    ∀ s s' : Subscriber.Process, s.wellFormed → s.run evs = some s' → s'.wellFormed := by
  induction evs with
  | nil =>
    intro s s' hw h
    simp [Subscriber.Process.run] at h
    exact h ▸ hw
  | cons e rest ih =>
    intro s s' hw h
    unfold Subscriber.Process.run at h
    cases hs : s.step e with
    | none => simp [hs] at h
    | some s₁ =>
      simp only [hs] at h
      exact ih s₁ s' (Subscriber.Process.step_wellFormed s s₁ e hw hs) h

theorem Subscriber.Process.init_wellFormed : Subscriber.Process.init.wellFormed := by
  refine ⟨⟨[], Subscriber.Worker.init_outShape⟩, ?_, ?_⟩
  · intro h
    simp [Subscriber.Process.init, Subscriber.Pipeline.init, Subscriber.Worker.init] at h
  · intro h
    simp [Subscriber.Process.init, Subscriber.Pipeline.init] at h

/-- With the worker returned, `main` runs on to its return whatever sends of
the handler stand, and leaves the pipeline as it is. -/
theorem Subscriber.Process.shutdown_completes (s : Subscriber.Process) (hw : s.wellFormed)
    (hret : s.pipe.worker.pc = .returned) (hlive : s.main ≠ .exited) :
    ∃ later s', s.run later = some s' ∧ s'.main = .exited ∧ s'.pipe = s.pipe := by
  obtain ⟨⟨sent, hshape, _⟩, h₂, h₃⟩ := hw
  have hended : (Subscriber.drainLoop s.pipe.worker.out).ended = true := by
    rw [hshape hret, Subscriber.drainLoop_sends_close]
  have hmain := h₃ (h₂ hret)
  cases hm : s.main with
  | awaitSignal => exact absurd hm hmain
  | cancelled =>
    exact ⟨[.main, .main, .main, .main], { s with main := .exited },
      by simp [Subscriber.Process.run, Subscriber.Process.step, hm, hended], rfl, rfl⟩
  | unsubscribed =>
    exact ⟨[.main, .main, .main], { s with main := .exited },
      by simp [Subscriber.Process.run, Subscriber.Process.step, hm, hended], rfl, rfl⟩
  | disconnected =>
    exact ⟨[.main, .main], { s with main := .exited },
      by simp [Subscriber.Process.run, Subscriber.Process.step, hm, hended], rfl, rfl⟩
  | joined =>
    exact ⟨[.main], { s with main := .exited },
      by simp [Subscriber.Process.run, Subscriber.Process.step, hm], rfl, rfl⟩
  | exited => exact absurd hm hlive

/-- A step of the process takes a standing send of the handler away only when
it is the receive of the worker at its `select`. -/
theorem Subscriber.Process.step_completes_push (s s' : Subscriber.Process)
    (e : Subscriber.ProcessEvent) (h : s.step e = some s')
    (hless : s'.pipe.blocked.length < s.pipe.blocked.length) :
    e = .workerRecv ∧ s.pipe.worker.pc = .select ∧
      ∃ msg, s.pipe.blocked = msg :: s'.pipe.blocked ∧
        s'.pipe.worker.stdout = s.pipe.worker.stdout ++ [Subscriber.receivedLine msg] := by
  cases e with
  | main =>
    exfalso
    cases hm : s.main <;> simp [Subscriber.Process.step, hm, Subscriber.Pipeline.step] at h
    all_goals first
      | (obtain ⟨_, h⟩ := h; subst h; simp at hless)
      | (subst h; simp at hless)
  | deliver msg =>
    exfalso
    cases hm : s.main <;> simp [Subscriber.Process.step, hm, Subscriber.Pipeline.step] at h
    all_goals (subst h; simp at hless)
  | workerRecv =>
    simp only [Subscriber.Process.step] at h
    split at h
    · simp at h
    · simp only [Option.map_eq_some'] at h
      obtain ⟨p, hp, hs⟩ := h
      subst hs
      cases hb : s.pipe.blocked with
      | nil => simp [Subscriber.Pipeline.step, hb] at hp
      | cons msg later =>
        simp only [Subscriber.Pipeline.step, hb, Option.map_eq_some'] at hp
        obtain ⟨w, hw, hp'⟩ := hp
        subst hp'
        obtain ⟨hpc, _, hout, _⟩ := Subscriber.Worker.step_recv s.pipe.worker w msg hw
        exact ⟨rfl, hpc, msg, rfl, hout⟩
  | workerDone =>
    exfalso
    simp only [Subscriber.Process.step] at h
    split at h
    · simp at h
    · simp only [Option.map_eq_some'] at h
      obtain ⟨p, hp, hs⟩ := h
      subst hs
      by_cases hcan : s.pipe.cancelled = true
      · simp only [Subscriber.Pipeline.step, hcan, if_true, Option.map_eq_some'] at hp
        obtain ⟨w, _, hp'⟩ := hp
        subst hp'
        simp at hless
      · simp [Subscriber.Pipeline.step, hcan] at hp
  | drainTake =>
    exfalso
    simp only [Subscriber.Process.step] at h
    split at h
    · simp at h
    · simp only [Option.map_eq_some'] at h
      obtain ⟨p, hp, hs⟩ := h
      subst hs
      simp only [Subscriber.Pipeline.step, Option.map_eq_some'] at hp
      obtain ⟨w, _, hp'⟩ := hp
      subst hp'
      simp at hless

/-! ## Theorems: late messages during shutdown -/

/-- C10, as stated, fails: `main` receives the signal and calls `cancel()`, the
worker takes `case <-ctx.Done()` and returns, and before `Unsubscribe` a message
is delivered to `messagePubHandler`.  When `Disconnect(250)` has returned the
send `mqttMsgChan <- msg` still stands (it is a blocking send: the message was
not dropped), the channel has had no reader since before the delivery, the
receive of the worker is not enabled, and in no continuation of the run, up to
and including the return from `main`, does the send complete or the message
get printed. -/
theorem late_push_has_no_reader :
    ∃ s : Subscriber.Process,
      Subscriber.Process.init.run
        [.main, .workerDone, .deliver ⟨"late", "iot-messages"⟩, .main, .main] = some s ∧
      s.main = .disconnected ∧ s.pipe.cancelled = true ∧
      s.pipe.worker.pc = .returned ∧
      s.pipe.blocked = [⟨"late", "iot-messages"⟩] ∧
      s.step .workerRecv = none ∧
      ∀ (later : List Subscriber.ProcessEvent) (s' : Subscriber.Process),
        s.run later = some s' →
        s'.pipe.worker.stdout = [] ∧
          ∃ more, s'.pipe.blocked = (⟨"late", "iot-messages"⟩ : Subscriber.Message) :: more := by
  refine ⟨{ main := .disconnected,
            pipe := { cancelled := true, blocked := [⟨"late", "iot-messages"⟩],
                      worker := { pc := .returned, stdout := [], out := [.close] } } },
    rfl, rfl, rfl, rfl, rfl, rfl, ?_⟩
  intro later s' h
  obtain ⟨hw, more, hm⟩ := Subscriber.Process.run_keeps_pushes later _ s' rfl h
  exact ⟨by rw [hw], more, by simpa using hm⟩

/-- C10, amended: in every state the subscriber process reaches in which the
worker has returned and `main` has not, the context has been cancelled after
the signal; a message delivered while `Unsubscribe` or `Disconnect` has not
completed makes the handler start a send on `mqttMsgChan` that stands, the
receive of the worker not being enabled; in every continuation the worker and
its output stay as they are and every standing send keeps standing; and the
shutdown is not held up: `main` runs on to its return with the sends still
standing, which is where the late message is dropped.  In any state at all, a
standing send is taken away only by the receive of the worker at its `select`,
which prints the message. -/
theorem late_push_stands_until_exit (evs : List Subscriber.ProcessEvent)
    (s : Subscriber.Process)
    (hrun : Subscriber.Process.init.run evs = some s)
    (hret : s.pipe.worker.pc = .returned) (hlive : s.main ≠ .exited) :
    (s.pipe.cancelled = true ∧ s.main ≠ .awaitSignal) ∧
    (∀ msg : Subscriber.Message, s.main = .cancelled ∨ s.main = .unsubscribed →
      ∃ s', s.step (.deliver msg) = some s' ∧
        s'.pipe.blocked = s.pipe.blocked ++ [msg] ∧
        s'.pipe.worker = s.pipe.worker ∧ s'.main = s.main ∧
        s'.step .workerRecv = none) ∧
    (∀ (later : List Subscriber.ProcessEvent) (s' : Subscriber.Process),
      s.run later = some s' →
      s'.pipe.worker = s.pipe.worker ∧ ∃ more, s'.pipe.blocked = s.pipe.blocked ++ more) ∧
    (∃ later s', s.run later = some s' ∧ s'.main = .exited ∧ s'.pipe = s.pipe) ∧
    (∀ (t t' : Subscriber.Process) (e : Subscriber.ProcessEvent),
      t.step e = some t' → t'.pipe.blocked.length < t.pipe.blocked.length →
      e = .workerRecv ∧ t.pipe.worker.pc = .select ∧
        ∃ msg, t.pipe.blocked = msg :: t'.pipe.blocked ∧
          t'.pipe.worker.stdout = t.pipe.worker.stdout ++ [Subscriber.receivedLine msg]) := by
  have hwf := Subscriber.Process.run_wellFormed evs _ s Subscriber.Process.init_wellFormed hrun
  refine ⟨?_, ?_, ?_, ?_, ?_⟩
  · exact ⟨hwf.2.1 hret, hwf.2.2 (hwf.2.1 hret)⟩
  · intro msg hmain
    rcases hmain with hm | hm
    · refine ⟨{ s with pipe := { s.pipe with blocked := s.pipe.blocked ++ [msg] } }, ?_, rfl,
        rfl, rfl, ?_⟩
      · simp [Subscriber.Process.step, hm, Subscriber.Pipeline.step]
      · cases hb : s.pipe.blocked <;>
          simp [Subscriber.Process.step, hm, Subscriber.Pipeline.step, hb,
            Subscriber.Worker.step_returned _ _ hret]
    · refine ⟨{ s with pipe := { s.pipe with blocked := s.pipe.blocked ++ [msg] } }, ?_, rfl,
        rfl, rfl, ?_⟩
      · simp [Subscriber.Process.step, hm, Subscriber.Pipeline.step]
      · cases hb : s.pipe.blocked <;>
          simp [Subscriber.Process.step, hm, Subscriber.Pipeline.step, hb,
            Subscriber.Worker.step_returned _ _ hret]
  · intro later s' h
    exact Subscriber.Process.run_keeps_pushes later s s' hret h
  · exact Subscriber.Process.shutdown_completes s hwf hret hlive
  · intro t t' e h hless
    exact Subscriber.Process.step_completes_push t t' e h hless

/-- Witness of the amended C10: after the signal with `cancel()` and the return
of the worker, a message delivered before `Unsubscribe` stands in its send. -/
theorem late_push_stands_until_exit_witness :
    ∃ s' : Subscriber.Process,
      Subscriber.Process.step
          { main := .cancelled,
            pipe := { cancelled := true, blocked := [],
                      worker := { pc := .returned, stdout := [], out := [.close] } } }
          (.deliver ⟨"late", "iot-messages"⟩) = some s' ∧
        s'.pipe.blocked = [⟨"late", "iot-messages"⟩] ∧
        s'.step .workerRecv = none := by
  obtain ⟨s', h₁, h₂, _, _, h₃⟩ := (late_push_stands_until_exit
    [.main, .workerDone]
    { main := .cancelled,
      pipe := { cancelled := true, blocked := [],
                worker := { pc := .returned, stdout := [], out := [.close] } } }
    rfl rfl (by decide)).2.1 ⟨"late", "iot-messages"⟩ (Or.inl rfl)
  exact ⟨s', h₁, by simpa using h₂, h₃⟩

end MqttStudy
